import Mathlib

/-!
# libmaple ADC header (`libmaple/include/libmaple/adc.h`)

A shallow embedding of the ADC register map, its bit-field constants and the
inline accessors of the header, followed by the properties proved about them.

Conventions of the embedding.

* A `uint32` register holds a natural number; the accessors are functions on a
  memory that maps the address of a register block to its contents.
* C expressions of type `int` are integers; the conversion to `uint32` that an
  assignment to a `uint32` object performs is `to_uint32` (reduction modulo
  `2 ^ 32`).
* Constants of the series header (`series/adc.h`), which the header includes
  but does not define, are parameters of the accessors that use them.
-/

namespace libmaple

/-! ## Machine integers -/

/-- Conversion of a C `int` value to `uint32`: the value modulo `2 ^ 32`. -/
def to_uint32 (i : Int) : Nat := (i % 4294967296).toNat

/-- Modelled from the spec: the `BIT` macro comes from `libmaple/libmaple.h`,
which is not among the sources; it is the bit-flag constant `1UL << shift` of a
bit position, a 32-bit `unsigned long` on the target. -/
def BIT (shift : Nat) : Nat := (1 <<< shift) % 4294967296

/-! ## Register map -/

/-- ADC register map type (`struct adc_reg_map`): one `__io uint32` per register. -/
structure adc_reg_map where
  SR : Nat
  CR1 : Nat
  CR2 : Nat
  SMPR1 : Nat
  SMPR2 : Nat
  JOFR1 : Nat
  JOFR2 : Nat
  JOFR3 : Nat
  JOFR4 : Nat
  HTR : Nat
  LTR : Nat
  SQR1 : Nat
  SQR2 : Nat
  SQR3 : Nat
  JSQR : Nat
  JDR1 : Nat
  JDR2 : Nat
  JDR3 : Nat
  JDR4 : Nat
  DR : Nat
deriving DecidableEq

/-- ADC device type (`struct adc_dev`): `regs` is the address of the register
block, `priv` the private pointer, `clk_id` the RCC clock identifier. -/
structure adc_dev where
  regs : Nat
  priv : Nat
  clk_id : Nat
deriving DecidableEq

/-- The register blocks of the address space, by base address. -/
abbrev adc_mem := Nat → adc_reg_map

/-- Store of a whole register block at address `a`. -/
def adc_mem.store (m : adc_mem) (a : Nat) (r : adc_reg_map) : adc_mem :=
  fun b => if b = a then r else m b

/-! ## Register bit definitions -/

def ADC_SR_AWD_BIT : Nat := 0
def ADC_SR_EOC_BIT : Nat := 1
def ADC_SR_JEOC_BIT : Nat := 2
def ADC_SR_JSTRT_BIT : Nat := 3
def ADC_SR_STRT_BIT : Nat := 4

def ADC_SR_AWD : Nat := BIT ADC_SR_AWD_BIT
def ADC_SR_EOC : Nat := BIT ADC_SR_EOC_BIT
def ADC_SR_JEOC : Nat := BIT ADC_SR_JEOC_BIT
def ADC_SR_JSTRT : Nat := BIT ADC_SR_JSTRT_BIT
def ADC_SR_STRT : Nat := BIT ADC_SR_STRT_BIT

def ADC_CR1_EOCIE_BIT : Nat := 5
def ADC_CR1_AWDIE_BIT : Nat := 6
def ADC_CR1_JEOCIE_BIT : Nat := 7
def ADC_CR1_SCAN_BIT : Nat := 8
def ADC_CR1_AWDSGL_BIT : Nat := 9
def ADC_CR1_JAUTO_BIT : Nat := 10
def ADC_CR1_DISCEN_BIT : Nat := 11
def ADC_CR1_JDISCEN_BIT : Nat := 12
def ADC_CR1_JAWDEN_BIT : Nat := 22
def ADC_CR1_AWDEN_BIT : Nat := 23

def ADC_CR1_AWDCH : Nat := 0x1F
def ADC_CR1_EOCIE : Nat := BIT ADC_CR1_EOCIE_BIT
def ADC_CR1_AWDIE : Nat := BIT ADC_CR1_AWDIE_BIT
def ADC_CR1_JEOCIE : Nat := BIT ADC_CR1_JEOCIE_BIT
def ADC_CR1_SCAN : Nat := BIT ADC_CR1_SCAN_BIT
def ADC_CR1_AWDSGL : Nat := BIT ADC_CR1_AWDSGL_BIT
def ADC_CR1_JAUTO : Nat := BIT ADC_CR1_JAUTO_BIT
def ADC_CR1_DISCEN : Nat := BIT ADC_CR1_DISCEN_BIT
def ADC_CR1_JDISCEN : Nat := BIT ADC_CR1_JDISCEN_BIT
def ADC_CR1_DISCNUM : Nat := 0xE000
def ADC_CR1_JAWDEN : Nat := BIT ADC_CR1_JAWDEN_BIT
def ADC_CR1_AWDEN : Nat := BIT ADC_CR1_AWDEN_BIT

def ADC_SMPR1_SMP17 : Nat := 0x7 <<< 21
def ADC_SMPR1_SMP16 : Nat := 0x7 <<< 18
def ADC_SMPR1_SMP15 : Nat := 0x7 <<< 15
def ADC_SMPR1_SMP14 : Nat := 0x7 <<< 12
def ADC_SMPR1_SMP13 : Nat := 0x7 <<< 9
def ADC_SMPR1_SMP12 : Nat := 0x7 <<< 6
def ADC_SMPR1_SMP11 : Nat := 0x7 <<< 3
def ADC_SMPR1_SMP10 : Nat := 0x7

def ADC_SMPR2_SMP9 : Nat := 0x7 <<< 27
def ADC_SMPR2_SMP8 : Nat := 0x7 <<< 24
def ADC_SMPR2_SMP7 : Nat := 0x7 <<< 21
def ADC_SMPR2_SMP6 : Nat := 0x7 <<< 18
def ADC_SMPR2_SMP5 : Nat := 0x7 <<< 15
def ADC_SMPR2_SMP4 : Nat := 0x7 <<< 12
def ADC_SMPR2_SMP3 : Nat := 0x7 <<< 9
def ADC_SMPR2_SMP2 : Nat := 0x7 <<< 6
def ADC_SMPR2_SMP1 : Nat := 0x7 <<< 3
def ADC_SMPR2_SMP0 : Nat := 0x7

def ADC_JOFR_JOFFSET : Nat := 0x3FF
def ADC_HTR_HT : Nat := 0x3FF
def ADC_LTR_LT : Nat := 0x3FF

def ADC_SQR1_L : Nat := 0x1F <<< 20
def ADC_SQR1_SQ16 : Nat := 0x1F <<< 15
def ADC_SQR1_SQ15 : Nat := 0x1F <<< 10
def ADC_SQR1_SQ14 : Nat := 0x1F <<< 5
def ADC_SQR1_SQ13 : Nat := 0x1F

def ADC_SQR2_SQ12 : Nat := 0x1F <<< 25
def ADC_SQR2_SQ11 : Nat := 0x1F <<< 20
def ADC_SQR2_SQ10 : Nat := 0x1F <<< 16
def ADC_SQR2_SQ9 : Nat := 0x1F <<< 10
def ADC_SQR2_SQ8 : Nat := 0x1F <<< 5
def ADC_SQR2_SQ7 : Nat := 0x1F

def ADC_SQR3_SQ6 : Nat := 0x1F <<< 25
def ADC_SQR3_SQ5 : Nat := 0x1F <<< 20
def ADC_SQR3_SQ4 : Nat := 0x1F <<< 16
def ADC_SQR3_SQ3 : Nat := 0x1F <<< 10
def ADC_SQR3_SQ2 : Nat := 0x1F <<< 5
def ADC_SQR3_SQ1 : Nat := 0x1F

def ADC_JSQR_JL : Nat := 0x3 <<< 20
def ADC_JSQR_JL_1CONV : Nat := 0x0 <<< 20
def ADC_JSQR_JL_2CONV : Nat := 0x1 <<< 20
def ADC_JSQR_JL_3CONV : Nat := 0x2 <<< 20
def ADC_JSQR_JL_4CONV : Nat := 0x3 <<< 20
def ADC_JSQR_JSQ4 : Nat := 0x1F <<< 15
def ADC_JSQR_JSQ3 : Nat := 0x1F <<< 10
def ADC_JSQR_JSQ2 : Nat := 0x1F <<< 5
def ADC_JSQR_JSQ1 : Nat := 0x1F

def ADC_JDR_JDATA : Nat := 0xFFFF

def ADC_DR_ADC2DATA : Nat := 0xFFFF <<< 16
def ADC_DR_DATA : Nat := 0xFFFF

/-! ## Register masks by register

The field masks of each register, in the order the header defines them. The
`ADC_JSQR_JL_nCONV` constants are values of the `JL` field and are not masks. -/

def ADC_SR_masks : List Nat :=
  [ADC_SR_AWD, ADC_SR_EOC, ADC_SR_JEOC, ADC_SR_JSTRT, ADC_SR_STRT]

def ADC_CR1_masks : List Nat :=
  [ADC_CR1_AWDCH, ADC_CR1_EOCIE, ADC_CR1_AWDIE, ADC_CR1_JEOCIE, ADC_CR1_SCAN,
   ADC_CR1_AWDSGL, ADC_CR1_JAUTO, ADC_CR1_DISCEN, ADC_CR1_JDISCEN, ADC_CR1_DISCNUM,
   ADC_CR1_JAWDEN, ADC_CR1_AWDEN]

def ADC_SMPR1_masks : List Nat :=
  [ADC_SMPR1_SMP17, ADC_SMPR1_SMP16, ADC_SMPR1_SMP15, ADC_SMPR1_SMP14,
   ADC_SMPR1_SMP13, ADC_SMPR1_SMP12, ADC_SMPR1_SMP11, ADC_SMPR1_SMP10]

def ADC_SMPR2_masks : List Nat :=
  [ADC_SMPR2_SMP9, ADC_SMPR2_SMP8, ADC_SMPR2_SMP7, ADC_SMPR2_SMP6, ADC_SMPR2_SMP5,
   ADC_SMPR2_SMP4, ADC_SMPR2_SMP3, ADC_SMPR2_SMP2, ADC_SMPR2_SMP1, ADC_SMPR2_SMP0]

def ADC_SQR1_masks : List Nat :=
  [ADC_SQR1_L, ADC_SQR1_SQ16, ADC_SQR1_SQ15, ADC_SQR1_SQ14, ADC_SQR1_SQ13]

def ADC_SQR2_masks : List Nat :=
  [ADC_SQR2_SQ12, ADC_SQR2_SQ11, ADC_SQR2_SQ10, ADC_SQR2_SQ9, ADC_SQR2_SQ8, ADC_SQR2_SQ7]

def ADC_SQR3_masks : List Nat :=
  [ADC_SQR3_SQ6, ADC_SQR3_SQ5, ADC_SQR3_SQ4, ADC_SQR3_SQ3, ADC_SQR3_SQ2, ADC_SQR3_SQ1]

def ADC_JSQR_masks : List Nat :=
  [ADC_JSQR_JL, ADC_JSQR_JSQ4, ADC_JSQR_JSQ3, ADC_JSQR_JSQ2, ADC_JSQR_JSQ1]

def ADC_DR_masks : List Nat :=
  [ADC_DR_ADC2DATA, ADC_DR_DATA]

/-- Any two masks at different positions of the list have bitwise AND zero. -/
def masks_disjoint (masks : List Nat) : Prop :=
  masks.Pairwise (fun a b => a &&& b = 0)

instance (masks : List Nat) : Decidable (masks_disjoint masks) := by
  unfold masks_disjoint
  infer_instance

/-! ## Layout of the register map -/

/-- What a register of the block is, after the comment on its member. -/
inductive adc_reg_kind where
  | status
  | control
  | sample_time
  | injected_offset
  | watchdog_threshold
  | regular_sequence
  | injected_sequence
  | injected_data
  | regular_data
deriving DecidableEq

/-- Size in bytes of a `uint32`. -/
def sizeof_uint32 : Nat := 4

/-- The members of `struct adc_reg_map` in declaration order: name, kind and
size in bytes (every member is an `__io uint32`). -/
def adc_reg_map_members : List (String × adc_reg_kind × Nat) :=
  [("SR", .status, sizeof_uint32),
   ("CR1", .control, sizeof_uint32),
   ("CR2", .control, sizeof_uint32),
   ("SMPR1", .sample_time, sizeof_uint32),
   ("SMPR2", .sample_time, sizeof_uint32),
   ("JOFR1", .injected_offset, sizeof_uint32),
   ("JOFR2", .injected_offset, sizeof_uint32),
   ("JOFR3", .injected_offset, sizeof_uint32),
   ("JOFR4", .injected_offset, sizeof_uint32),
   ("HTR", .watchdog_threshold, sizeof_uint32),
   ("LTR", .watchdog_threshold, sizeof_uint32),
   ("SQR1", .regular_sequence, sizeof_uint32),
   ("SQR2", .regular_sequence, sizeof_uint32),
   ("SQR3", .regular_sequence, sizeof_uint32),
   ("JSQR", .injected_sequence, sizeof_uint32),
   ("JDR1", .injected_data, sizeof_uint32),
   ("JDR2", .injected_data, sizeof_uint32),
   ("JDR3", .injected_data, sizeof_uint32),
   ("JDR4", .injected_data, sizeof_uint32),
   ("DR", .regular_data, sizeof_uint32)]

/-- Round `off` up to a multiple of `a`. -/
def align_up (off a : Nat) : Nat := (off + a - 1) / a * a

/-- Byte offsets of the members of a C structure whose scalar members have the
given sizes (a scalar is aligned to its size): each member starts at the first
aligned offset at or after the end of the previous one. -/
def member_offsets : List Nat → Nat → List Nat
  | [], _ => []
  | s :: rest, off => align_up off s :: member_offsets rest (align_up off s + s)

/-- Byte offsets of the registers of `adc_reg_map`. -/
def adc_reg_map_offsets : List Nat :=
  member_offsets (adc_reg_map_members.map (fun x => x.2.2)) 0

/-- The registers of a block in declaration order. -/
def adc_reg_map.words (r : adc_reg_map) : List Nat :=
  [r.SR, r.CR1, r.CR2, r.SMPR1, r.SMPR2, r.JOFR1, r.JOFR2, r.JOFR3, r.JOFR4, r.HTR,
   r.LTR, r.SQR1, r.SQR2, r.SQR3, r.JSQR, r.JDR1, r.JDR2, r.JDR3, r.JDR4, r.DR]

/-! ## Routines -/

/-- Modelled from the spec: `bb_perip` comes from `libmaple/bitband.h`, which is
not among the sources, and a store through the pointer it returns is carried
out by the bit-band alias region of the hardware. The spec describes it as an
atomic single-bit set or clear over an address and a bit index that leaves the
other bits untouched: bit `bit` of the word becomes the low bit of `val`. -/
def bb_perip_store (word bit val : Nat) : Nat :=
  if val % 2 = 1 then word ||| (1 <<< bit) else word ^^^ (word &&& (1 <<< bit))

/-- Enable an ADC peripheral (`adc_enable`); `ADC_CR2_ADON_BIT` is a constant of
the series header. -/
def adc_enable (ADC_CR2_ADON_BIT : Nat) (dev : adc_dev) (m : adc_mem) : adc_mem :=
  m.store dev.regs
    { m dev.regs with CR2 := bb_perip_store (m dev.regs).CR2 ADC_CR2_ADON_BIT 1 }

/-- Disable an ADC peripheral (`adc_disable`). -/
def adc_disable (ADC_CR2_ADON_BIT : Nat) (dev : adc_dev) (m : adc_mem) : adc_mem :=
  m.store dev.regs
    { m dev.regs with CR2 := bb_perip_store (m dev.regs).CR2 ADC_CR2_ADON_BIT 0 }

/-- Modelled from the spec: `adc_foreach` is declared `extern` and its body is
not among the sources; it calls `fn` once on each ADC device of the registered
device list `adc_devs`, in order. -/
def adc_foreach (adc_devs : List adc_dev) (fn : adc_dev → adc_mem → adc_mem)
    (m : adc_mem) : adc_mem :=
  adc_devs.foldl (fun acc dev => fn dev acc) m

/-- Disable all ADC peripherals (`adc_disable_all`). -/
def adc_disable_all (ADC_CR2_ADON_BIT : Nat) (adc_devs : List adc_dev) (m : adc_mem) :
    adc_mem :=
  adc_foreach adc_devs (adc_disable ADC_CR2_ADON_BIT) m


/-- Set the regular channel sequence length (`adc_set_reg_seqlen`).

`length` is a `uint8` parameter, so the value received is `length % 256`. In
`tmp &= ~ADC_SQR1_L` the complement is taken on an `int` and converted to
`uint32`; in `tmp |= (length - 1) << 20` the operand is the promoted `int`
`length - 1` shifted left (`E1 * 2 ^ E2`) and converted to `uint32`. For
`length = 0` the shifted value is negative and the conversion is the
two's-complement one the compiler documents. -/
def adc_set_reg_seqlen (dev : adc_dev) (length : Nat) (m : adc_mem) : adc_mem :=
  let tmp := (m dev.regs).SQR1
  let tmp := tmp &&& to_uint32 (~~~ (ADC_SQR1_L : Int))
  let tmp := tmp ||| to_uint32 ((((length % 256 : Nat) : Int) - 1) * 2 ^ 20)
  m.store dev.regs { m dev.regs with SQR1 := tmp }

/-- Start the next conversion in the regular sequence (`adc_start_conv`):
`dev->regs->CR2 |= ADC_CR2_SWSTART`, with `ADC_CR2_SWSTART` a constant of the
series header. -/
def adc_start_conv (ADC_CR2_SWSTART : Nat) (dev : adc_dev) (m : adc_mem) : adc_mem :=
  m.store dev.regs { m dev.regs with CR2 := (m dev.regs).CR2 ||| ADC_CR2_SWSTART }

/-- Check if a regular conversion has completed (`adc_is_conv_complete`): the
value returned (`dev->regs->SR & ADC_SR_EOC`, which is `0` or `2` and so
unchanged by the conversion to `int`) and the memory after the read. -/
def adc_is_conv_complete (dev : adc_dev) (m : adc_mem) : Nat × adc_mem :=
  ((m dev.regs).SR &&& ADC_SR_EOC, m)

/-- Get converted data from the regular sequence (`adc_get_data`): the value
returned (`dev->regs->DR`) and the memory after the read. -/
def adc_get_data (dev : adc_dev) (m : adc_mem) : Nat × adc_mem :=
  ((m dev.regs).DR, m)


/-! ## A register state for examples -/

/-- A register block with every register zero except `SR`, `CR2`, `SQR1` and `DR`. -/
def example_regs : adc_reg_map :=
  { SR := 0x12, CR1 := 0, CR2 := 0x00A00002, SMPR1 := 0, SMPR2 := 0, JOFR1 := 0, JOFR2 := 0,
    JOFR3 := 0, JOFR4 := 0, HTR := 0, LTR := 0, SQR1 := 0xFFFFFFFF, SQR2 := 0, SQR3 := 0,
    JSQR := 0, JDR1 := 0, JDR2 := 0, JDR3 := 0, JDR4 := 0, DR := 0xABCD1234 }

/-- A memory holding `example_regs` at every address. -/
def example_mem : adc_mem := fun _ => example_regs

/-- A device whose register block is at address `0`. -/
def example_dev : adc_dev := { regs := 0, priv := 0, clk_id := 0 }

/-- A memory whose register blocks all have `SQR1` zero. -/
def zero_SQR1_mem : adc_mem := fun _ => { example_regs with SQR1 := 0 }

/-! ## Auxiliary facts -/

theorem to_uint32_not_SQR1_L :
    to_uint32 (~~~ (ADC_SQR1_L : Int)) = 2 ^ 32 - (ADC_SQR1_L + 1) := by decide

theorem testBit_SQR1_L (i : Nat) :
    ADC_SQR1_L.testBit i = (decide (20 ≤ i) && decide (i < 25)) := by
  have h : ADC_SQR1_L = (2 ^ 5 - 1) <<< 20 := by decide
  rw [h, Nat.testBit_shiftLeft, Nat.testBit_two_pow_sub_one]
  by_cases h20 : 20 ≤ i
  · simp [h20]; omega
  · simp [h20]

theorem to_uint32_pred_shift (L : Nat) (h1 : 1 ≤ L) (h2 : L ≤ 255) :
    to_uint32 ((((L % 256 : Nat) : Int) - 1) * 2 ^ 20) = (L - 1) <<< 20 := by
  unfold to_uint32
  rw [Nat.shiftLeft_eq]
  have hm : L % 256 = L := Nat.mod_eq_of_lt (by omega)
  rw [hm]
  omega

theorem testBit_eq_false_of_lt_two_pow {x n i : Nat} (hx : x < 2 ^ n) (hi : n ≤ i) :
    x.testBit i = false :=
  Nat.testBit_lt_two_pow (lt_of_lt_of_le hx (Nat.pow_le_pow_right (by decide) hi))

/-- Value stored in `SQR1` by `adc_set_reg_seqlen`. -/
theorem adc_set_reg_seqlen_SQR1 (dev : adc_dev) (length : Nat) (m : adc_mem) :
    (adc_set_reg_seqlen dev length m dev.regs).SQR1 =
      ((m dev.regs).SQR1 &&& to_uint32 (~~~ (ADC_SQR1_L : Int))) |||
        to_uint32 ((((length % 256 : Nat) : Int) - 1) * 2 ^ 20) := by
  simp [adc_set_reg_seqlen, adc_mem.store]

/-- Only `SQR1` of the device's block is written by `adc_set_reg_seqlen`. -/
theorem adc_set_reg_seqlen_frame (dev : adc_dev) (length : Nat) (m : adc_mem) :
    adc_set_reg_seqlen dev length m dev.regs =
      { m dev.regs with SQR1 := (adc_set_reg_seqlen dev length m dev.regs).SQR1 } := by
  simp [adc_set_reg_seqlen, adc_mem.store]

/-- No other register block is written by `adc_set_reg_seqlen`. -/
theorem adc_set_reg_seqlen_other (dev : adc_dev) (length : Nat) (m : adc_mem) (a : Nat)
    (ha : a ≠ dev.regs) : adc_set_reg_seqlen dev length m a = m a := by
  simp [adc_set_reg_seqlen, adc_mem.store, ha]

/-- Bits of the value stored for a length whose predecessor fits in five bits. -/
theorem seqlen_testBit (v L : Nat) (hv : v < 2 ^ 32) (h1 : 1 ≤ L) (h2 : L ≤ 32) (i : Nat) :
    ((v &&& to_uint32 (~~~ (ADC_SQR1_L : Int))) |||
        to_uint32 ((((L % 256 : Nat) : Int) - 1) * 2 ^ 20)).testBit i =
      if 20 ≤ i ∧ i < 25 then (L - 1).testBit (i - 20) else v.testBit i := by
  have hL : ADC_SQR1_L < 2 ^ 32 := by decide
  rw [to_uint32_not_SQR1_L, to_uint32_pred_shift L h1 (by omega), Nat.testBit_or,
    Nat.testBit_and, Nat.testBit_two_pow_sub_succ hL, testBit_SQR1_L, Nat.testBit_shiftLeft]
  by_cases h20 : 20 ≤ i
  · by_cases h25 : i < 25
    · simp [h20, h25]
    · have hp : (L - 1).testBit (i - 20) = false :=
        testBit_eq_false_of_lt_two_pow (n := 5) (by norm_num; omega) (by omega)
      have hv32 : 32 ≤ i → v.testBit i = false := fun h =>
        testBit_eq_false_of_lt_two_pow hv h
      by_cases h32 : i < 32
      · simp [h20, h25, hp, h32]
      · simp [h20, h25, hp, h32, hv32 (by omega)]
  · have h25 : i < 25 := by omega
    have h32 : i < 32 := by omega
    simp [h20, h32]

/-- The length field of the value stored holds `L - 1`. -/
theorem seqlen_field (v L : Nat) (hv : v < 2 ^ 32) (h1 : 1 ≤ L) (h2 : L ≤ 32) :
    (((v &&& to_uint32 (~~~ (ADC_SQR1_L : Int))) |||
        to_uint32 ((((L % 256 : Nat) : Int) - 1) * 2 ^ 20)) &&& ADC_SQR1_L) >>> 20 = L - 1 := by
  apply Nat.eq_of_testBit_eq
  intro j
  rw [Nat.testBit_shiftRight, Nat.testBit_and, seqlen_testBit v L hv h1 h2, testBit_SQR1_L]
  by_cases h5 : j < 5
  · have e : 20 + j - 20 = j := by omega
    have h25 : 20 + j < 25 := by omega
    simp [h25, e]
  · have hp : (L - 1).testBit j = false :=
      testBit_eq_false_of_lt_two_pow (n := 5) (by norm_num; omega) (by omega)
    have h25 : ¬ 20 + j < 25 := by omega
    simp [h25, hp]

/-- Bits outside the length field are kept by the value stored. -/
theorem seqlen_outside (v L : Nat) (hv : v < 2 ^ 32) (h1 : 1 ≤ L) (h2 : L ≤ 32) (i : Nat)
    (hi : ADC_SQR1_L.testBit i = false) :
    ((v &&& to_uint32 (~~~ (ADC_SQR1_L : Int))) |||
        to_uint32 ((((L % 256 : Nat) : Int) - 1) * 2 ^ 20)).testBit i = v.testBit i := by
  rw [seqlen_testBit v L hv h1 h2]
  rw [testBit_SQR1_L] at hi
  have : ¬ (20 ≤ i ∧ i < 25) := by
    intro h
    simp [h.1, h.2] at hi
  simp [this]

/-! ## Sequence length -/

/-- C1: for a prior 32-bit value of `SQR1` and a length from 1 to 16,
`adc_set_reg_seqlen` leaves the length field (the bits of `ADC_SQR1_L`, which
are bits 20 to 24) equal to `length - 1`, keeps every bit of `SQR1` outside the
field, and changes no other register of the block or of another block. -/
theorem adc_set_reg_seqlen_in_range (dev : adc_dev) (m : adc_mem) (length : Nat)
    (hv : (m dev.regs).SQR1 < 2 ^ 32) (h1 : 1 ≤ length) (h16 : length ≤ 16) :
    (((adc_set_reg_seqlen dev length m dev.regs).SQR1 &&& ADC_SQR1_L) >>> 20 = length - 1) ∧
    (∀ i, ADC_SQR1_L.testBit i = true ↔ 20 ≤ i ∧ i ≤ 24) ∧
    (∀ i, ADC_SQR1_L.testBit i = false →
      (adc_set_reg_seqlen dev length m dev.regs).SQR1.testBit i =
        (m dev.regs).SQR1.testBit i) ∧
    (adc_set_reg_seqlen dev length m dev.regs =
      { m dev.regs with SQR1 := (adc_set_reg_seqlen dev length m dev.regs).SQR1 }) ∧
    (∀ a, a ≠ dev.regs → adc_set_reg_seqlen dev length m a = m a) := by
  refine ⟨?_, ?_, ?_, adc_set_reg_seqlen_frame dev length m,
    fun a ha => adc_set_reg_seqlen_other dev length m a ha⟩
  · rw [adc_set_reg_seqlen_SQR1]
    exact seqlen_field _ length hv h1 (by omega)
  · intro i
    rw [testBit_SQR1_L]
    simp
    omega
  · intro i hi
    rw [adc_set_reg_seqlen_SQR1]
    exact seqlen_outside _ length hv h1 (by omega) i hi

/-- Witness for C1: the length 16 written over an all-ones `SQR1`. -/
theorem adc_set_reg_seqlen_in_range_witness :
    ((example_mem example_dev.regs).SQR1 < 2 ^ 32 ∧ 1 ≤ 16 ∧ 16 ≤ 16) ∧
    (((adc_set_reg_seqlen example_dev 16 example_mem example_dev.regs).SQR1
        &&& ADC_SQR1_L) >>> 20 = 16 - 1) ∧
    (adc_set_reg_seqlen example_dev 16 example_mem example_dev.regs).SQR1 = 0xFEFFFFFF :=
  ⟨⟨by decide, by decide, by decide⟩,
    (adc_set_reg_seqlen_in_range example_dev example_mem 16
      (by decide) (by decide) (by decide)).1,
    by decide⟩


/-! ## Enable and disable -/

/-- Bits of a word after a bit-band store: bit `bit` is the low bit of the
value stored, every other bit is kept. -/
theorem bb_perip_store_testBit (word bit val i : Nat) :
    (bb_perip_store word bit val).testBit i =
      if i = bit then decide (val % 2 = 1) else word.testBit i := by
  unfold bb_perip_store
  rw [Nat.one_shiftLeft]
  by_cases hv : val % 2 = 1
  · by_cases hi : i = bit
    · subst hi
      simp [hv, Nat.testBit_two_pow_self]
    · have hne : bit ≠ i := fun h => hi h.symm
      simp [hv, hi, Nat.testBit_two_pow_of_ne hne]
  · by_cases hi : i = bit
    · subst hi
      simp [hv, Nat.testBit_two_pow_self]
    · have hne : bit ≠ i := fun h => hi h.symm
      simp [hv, hi, Nat.testBit_two_pow_of_ne hne]

/-- Clearing a bit that is clear leaves the word as it is. -/
theorem bb_perip_store_clear_of_clear (word bit : Nat) (h : word.testBit bit = false) :
    bb_perip_store word bit 0 = word := by
  apply Nat.eq_of_testBit_eq
  intro i
  rw [bb_perip_store_testBit]
  by_cases hi : i = bit
  · subst hi
    simp [h]
  · simp [hi]

/-- Setting a bit and then clearing it clears it. -/
theorem bb_perip_store_clear_set (word bit : Nat) :
    bb_perip_store (bb_perip_store word bit 1) bit 0 = bb_perip_store word bit 0 := by
  apply Nat.eq_of_testBit_eq
  intro i
  simp only [bb_perip_store_testBit]
  by_cases hi : i = bit <;> simp [hi]

/-- Clearing a bit twice is clearing it once. -/
theorem bb_perip_store_clear_clear (word bit : Nat) :
    bb_perip_store (bb_perip_store word bit 0) bit 0 = bb_perip_store word bit 0 := by
  apply Nat.eq_of_testBit_eq
  intro i
  simp only [bb_perip_store_testBit]
  by_cases hi : i = bit <;> simp [hi]

theorem adc_enable_CR2 (b : Nat) (dev : adc_dev) (m : adc_mem) :
    (adc_enable b dev m dev.regs).CR2 = bb_perip_store (m dev.regs).CR2 b 1 := by
  simp [adc_enable, adc_mem.store]

theorem adc_disable_CR2 (b : Nat) (dev : adc_dev) (m : adc_mem) :
    (adc_disable b dev m dev.regs).CR2 = bb_perip_store (m dev.regs).CR2 b 0 := by
  simp [adc_disable, adc_mem.store]

/-- What `adc_disable` leaves at every address. -/
theorem adc_disable_apply (b : Nat) (dev : adc_dev) (m : adc_mem) (a : Nat) :
    adc_disable b dev m a =
      if a = dev.regs then { m a with CR2 := bb_perip_store (m a).CR2 b 0 } else m a := by
  unfold adc_disable adc_mem.store
  by_cases h : a = dev.regs
  · subst h
    simp
  · simp [h]

/-- What `adc_enable` leaves at every address. -/
theorem adc_enable_apply (b : Nat) (dev : adc_dev) (m : adc_mem) (a : Nat) :
    adc_enable b dev m a =
      if a = dev.regs then { m a with CR2 := bb_perip_store (m a).CR2 b 1 } else m a := by
  unfold adc_enable adc_mem.store
  by_cases h : a = dev.regs
  · subst h
    simp
  · simp [h]

/-- A bit-band store at a bit index below 32 keeps a 32-bit word within 32 bits. -/
theorem bb_perip_store_lt (word bit val : Nat) (hw : word < 2 ^ 32) (hb : bit < 32) :
    bb_perip_store word bit val < 2 ^ 32 := by
  have hp : 2 ^ bit < 2 ^ 32 := Nat.pow_lt_pow_right (by decide) hb
  unfold bb_perip_store
  rw [Nat.one_shiftLeft]
  split
  · exact Nat.or_lt_two_pow hw hp
  · exact Nat.xor_lt_two_pow hw (Nat.and_lt_two_pow _ hp)

/-- C2: with the bit-band store a single-bit set or clear at bit index
`ADC_CR2_ADON_BIT`, `adc_enable` leaves the ADON bit of `CR2` set and
`adc_disable` leaves it clear; in both cases every other bit of `CR2`, every
other register of the block and every other block is as before the call, and
a 32-bit `CR2` stays a 32-bit value. -/
theorem adc_enable_disable_single_bit (ADC_CR2_ADON_BIT : Nat) (dev : adc_dev) (m : adc_mem)
    (hb : ADC_CR2_ADON_BIT < 32) :
    ((adc_enable ADC_CR2_ADON_BIT dev m dev.regs).CR2.testBit ADC_CR2_ADON_BIT = true ∧
      (∀ i, i ≠ ADC_CR2_ADON_BIT →
        (adc_enable ADC_CR2_ADON_BIT dev m dev.regs).CR2.testBit i =
          (m dev.regs).CR2.testBit i) ∧
      adc_enable ADC_CR2_ADON_BIT dev m dev.regs =
        { m dev.regs with CR2 := (adc_enable ADC_CR2_ADON_BIT dev m dev.regs).CR2 } ∧
      (∀ a, a ≠ dev.regs → adc_enable ADC_CR2_ADON_BIT dev m a = m a) ∧
      ((m dev.regs).CR2 < 2 ^ 32 →
        (adc_enable ADC_CR2_ADON_BIT dev m dev.regs).CR2 < 2 ^ 32)) ∧
    ((adc_disable ADC_CR2_ADON_BIT dev m dev.regs).CR2.testBit ADC_CR2_ADON_BIT = false ∧
      (∀ i, i ≠ ADC_CR2_ADON_BIT →
        (adc_disable ADC_CR2_ADON_BIT dev m dev.regs).CR2.testBit i =
          (m dev.regs).CR2.testBit i) ∧
      adc_disable ADC_CR2_ADON_BIT dev m dev.regs =
        { m dev.regs with CR2 := (adc_disable ADC_CR2_ADON_BIT dev m dev.regs).CR2 } ∧
      (∀ a, a ≠ dev.regs → adc_disable ADC_CR2_ADON_BIT dev m a = m a) ∧
      ((m dev.regs).CR2 < 2 ^ 32 →
        (adc_disable ADC_CR2_ADON_BIT dev m dev.regs).CR2 < 2 ^ 32)) := by
  refine ⟨⟨?_, ?_, ?_, ?_, ?_⟩, ⟨?_, ?_, ?_, ?_, ?_⟩⟩
  · rw [adc_enable_CR2, bb_perip_store_testBit]; simp
  · intro i hi
    rw [adc_enable_CR2, bb_perip_store_testBit]; simp [hi]
  · simp [adc_enable_apply]
  · intro a ha
    simp [adc_enable_apply, ha]
  · intro hw
    rw [adc_enable_CR2]
    exact bb_perip_store_lt _ _ _ hw hb
  · rw [adc_disable_CR2, bb_perip_store_testBit]; simp
  · intro i hi
    rw [adc_disable_CR2, bb_perip_store_testBit]; simp [hi]
  · simp [adc_disable_apply]
  · intro a ha
    simp [adc_disable_apply, ha]
  · intro hw
    rw [adc_disable_CR2]
    exact bb_perip_store_lt _ _ _ hw hb

/-- Witness for C2: ADON at bit 0, on a block whose `CR2` is `0x00A00002`. -/
theorem adc_enable_disable_single_bit_witness :
    (0 < 32) ∧
    (adc_enable 0 example_dev example_mem example_dev.regs).CR2.testBit 0 = true ∧
    (adc_disable 0 example_dev example_mem example_dev.regs).CR2.testBit 0 = false ∧
    (adc_enable 0 example_dev example_mem example_dev.regs).CR2 = 0x00A00003 :=
  ⟨by decide,
    (adc_enable_disable_single_bit 0 example_dev example_mem (by decide)).1.1,
    (adc_enable_disable_single_bit 0 example_dev example_mem (by decide)).2.1,
    by decide⟩

/-- C3: on a device whose `CR2` has the ADON bit clear, `adc_enable` followed
by `adc_disable` leaves `CR2` equal to its value before the two calls, with
ADON clear again. -/
theorem adc_enable_then_disable (ADC_CR2_ADON_BIT : Nat) (dev : adc_dev) (m : adc_mem)
    (hoff : (m dev.regs).CR2.testBit ADC_CR2_ADON_BIT = false) :
    (adc_disable ADC_CR2_ADON_BIT dev (adc_enable ADC_CR2_ADON_BIT dev m) dev.regs).CR2 =
      (m dev.regs).CR2 ∧
    (adc_disable ADC_CR2_ADON_BIT dev
      (adc_enable ADC_CR2_ADON_BIT dev m) dev.regs).CR2.testBit ADC_CR2_ADON_BIT = false ∧
    (adc_enable ADC_CR2_ADON_BIT dev m dev.regs).CR2.testBit ADC_CR2_ADON_BIT = true := by
  have hcr : (adc_disable ADC_CR2_ADON_BIT dev
      (adc_enable ADC_CR2_ADON_BIT dev m) dev.regs).CR2 = (m dev.regs).CR2 := by
    rw [adc_disable_CR2, adc_enable_CR2, bb_perip_store_clear_set,
      bb_perip_store_clear_of_clear _ _ hoff]
  refine ⟨hcr, ?_, ?_⟩
  · rw [hcr, hoff]
  · rw [adc_enable_CR2, bb_perip_store_testBit]; simp

/-- Witness for C3: ADON at bit 0, on a block whose `CR2` is `0x00A00002`. -/
theorem adc_enable_then_disable_witness :
    (example_mem example_dev.regs).CR2.testBit 0 = false ∧
    (adc_disable 0 example_dev (adc_enable 0 example_dev example_mem) example_dev.regs).CR2 =
      (example_mem example_dev.regs).CR2 :=
  ⟨by decide, (adc_enable_then_disable 0 example_dev example_mem (by decide)).1⟩


/-! ## Start of conversion, polling and data -/

/-- A bit flag for a position below 32 is the power of two of the position. -/
theorem BIT_eq_two_pow (b : Nat) (hb : b < 32) : BIT b = 2 ^ b := by
  unfold BIT
  rw [Nat.one_shiftLeft]
  exact Nat.mod_eq_of_lt (Nat.pow_lt_pow_right (by decide) hb)

theorem adc_start_conv_CR2 (sw : Nat) (dev : adc_dev) (m : adc_mem) :
    (adc_start_conv sw dev m dev.regs).CR2 = (m dev.regs).CR2 ||| sw := by
  simp [adc_start_conv, adc_mem.store]

/-- C4: with `ADC_CR2_SWSTART` the bit flag of a bit position of the register,
`adc_start_conv` leaves `CR2` equal to its prior value with the SWSTART bit
set: that bit is set, every other bit of `CR2` is as before, and no other
register of the block or of another block is written. -/
theorem adc_start_conv_sets_swstart (ADC_CR2_SWSTART_BIT : Nat) (dev : adc_dev)
    (m : adc_mem) (hb : ADC_CR2_SWSTART_BIT < 32) :
    (adc_start_conv (BIT ADC_CR2_SWSTART_BIT) dev m dev.regs).CR2 =
      (m dev.regs).CR2 ||| BIT ADC_CR2_SWSTART_BIT ∧
    (adc_start_conv (BIT ADC_CR2_SWSTART_BIT) dev m dev.regs).CR2.testBit
      ADC_CR2_SWSTART_BIT = true ∧
    (∀ i, i ≠ ADC_CR2_SWSTART_BIT →
      (adc_start_conv (BIT ADC_CR2_SWSTART_BIT) dev m dev.regs).CR2.testBit i =
        (m dev.regs).CR2.testBit i) ∧
    adc_start_conv (BIT ADC_CR2_SWSTART_BIT) dev m dev.regs =
      { m dev.regs with
        CR2 := (adc_start_conv (BIT ADC_CR2_SWSTART_BIT) dev m dev.regs).CR2 } ∧
    (∀ a, a ≠ dev.regs → adc_start_conv (BIT ADC_CR2_SWSTART_BIT) dev m a = m a) := by
  refine ⟨adc_start_conv_CR2 _ dev m, ?_, ?_, ?_, ?_⟩
  · rw [adc_start_conv_CR2, BIT_eq_two_pow _ hb, Nat.testBit_or, Nat.testBit_two_pow_self]
    simp
  · intro i hi
    have hne : ADC_CR2_SWSTART_BIT ≠ i := fun h => hi h.symm
    rw [adc_start_conv_CR2, BIT_eq_two_pow _ hb, Nat.testBit_or,
      Nat.testBit_two_pow_of_ne hne]
    simp
  · simp [adc_start_conv, adc_mem.store]
  · intro a ha
    simp [adc_start_conv, adc_mem.store, ha]

/-- Witness for C4: SWSTART at bit 22, on a block whose `CR2` is `0x00A00002`. -/
theorem adc_start_conv_sets_swstart_witness :
    (22 < 32) ∧
    (adc_start_conv (BIT 22) example_dev example_mem example_dev.regs).CR2 =
      (example_mem example_dev.regs).CR2 ||| BIT 22 ∧
    (adc_start_conv (BIT 22) example_dev example_mem example_dev.regs).CR2 = 0x00E00002 :=
  ⟨by decide, (adc_start_conv_sets_swstart 22 example_dev example_mem (by decide)).1,
    by decide⟩

/-- The end-of-conversion flag of a status value is `2` or `0` with bit 1 of the value. -/
theorem and_SR_EOC (s : Nat) : s &&& ADC_SR_EOC = if s.testBit 1 then 2 else 0 := by
  have h : ADC_SR_EOC = 2 ^ 1 := by decide
  rw [h]
  apply Nat.eq_of_testBit_eq
  intro i
  rw [Nat.testBit_and, Nat.testBit_two_pow]
  by_cases hi : 1 = i
  · subst hi
    have h21 : Nat.testBit 2 1 = true := by decide
    cases hs : s.testBit 1 <;> simp [h21]
  · cases hs : s.testBit 1
    · simp [hi]
    · have h2 : (2 : Nat) = 2 ^ 1 := by decide
      simp only [if_true]
      rw [h2, Nat.testBit_two_pow]
      simp [hi]

/-- C5: `adc_is_conv_complete` returns a non-zero value exactly when the
end-of-conversion bit (bit `ADC_SR_EOC_BIT`, which is 1) of `SR` is set,
whatever the other bits are, and leaves every register unchanged. -/
theorem adc_is_conv_complete_iff_eoc (dev : adc_dev) (m : adc_mem) :
    ((adc_is_conv_complete dev m).1 ≠ 0 ↔
      (m dev.regs).SR.testBit ADC_SR_EOC_BIT = true) ∧
    (adc_is_conv_complete dev m).1 =
      (if (m dev.regs).SR.testBit ADC_SR_EOC_BIT then 2 else 0) ∧
    ADC_SR_EOC_BIT = 1 ∧
    (adc_is_conv_complete dev m).2 = m := by
  have hbit : ADC_SR_EOC_BIT = 1 := rfl
  have hval : (adc_is_conv_complete dev m).1 =
      (if (m dev.regs).SR.testBit ADC_SR_EOC_BIT then 2 else 0) := by
    rw [hbit]
    exact and_SR_EOC _
  refine ⟨?_, hval, hbit, rfl⟩
  rw [hval]
  cases hs : (m dev.regs).SR.testBit ADC_SR_EOC_BIT <;> simp

/-- C6: `adc_get_data` returns the contents of `DR` as they are, all 32 bits
with neither mask nor shift: the upper half covered by `ADC_DR_ADC2DATA` is
returned with the rest, so that on a `DR` of `0xABCD1234` the value returned is
not `DR & ADC_DR_DATA`; and it leaves every register unchanged. -/
theorem adc_get_data_raw (dev : adc_dev) (m : adc_mem) :
    (adc_get_data dev m).1 = (m dev.regs).DR ∧
    (∀ i, (adc_get_data dev m).1.testBit i = (m dev.regs).DR.testBit i) ∧
    (adc_get_data dev m).1 &&& ADC_DR_ADC2DATA = (m dev.regs).DR &&& ADC_DR_ADC2DATA ∧
    (adc_get_data dev example_mem).1 = 0xABCD1234 ∧
    (adc_get_data dev example_mem).1 ≠ (example_mem dev.regs).DR &&& ADC_DR_DATA ∧
    (adc_get_data dev m).2 = m :=
  ⟨rfl, fun _ => rfl, rfl, rfl, by
    have h : (adc_get_data dev example_mem).1 = 0xABCD1234 := rfl
    have hd : (example_mem dev.regs).DR = 0xABCD1234 := rfl
    rw [h, hd]
    decide, rfl⟩

/-! ## Field masks -/

/-- C7: the field masks of `SQR2` and of `SQR3` are not pairwise disjoint: the
masks `SQ11` and `SQ10` of `SQR2` share bit 20, and so do `SQ5` and `SQ4` of
`SQR3`. The masks of `SR`, `CR1`, `SMPR1`, `SMPR2`, `SQR1`, `JSQR` and `DR` are
pairwise disjoint. -/
theorem masks_overlap_SQR2_SQR3 :
    ADC_SQR2_SQ11 &&& ADC_SQR2_SQ10 = 0x100000 ∧
    ADC_SQR3_SQ5 &&& ADC_SQR3_SQ4 = 0x100000 ∧
    ¬ masks_disjoint ADC_SQR2_masks ∧
    ¬ masks_disjoint ADC_SQR3_masks ∧
    masks_disjoint ADC_SR_masks ∧
    masks_disjoint ADC_CR1_masks ∧
    masks_disjoint ADC_SMPR1_masks ∧
    masks_disjoint ADC_SMPR2_masks ∧
    masks_disjoint ADC_SQR1_masks ∧
    masks_disjoint ADC_JSQR_masks ∧
    masks_disjoint ADC_DR_masks := by
  refine ⟨by decide, by decide, by decide, by decide, by decide, by decide, by decide,
    by decide, by decide, by decide, by decide⟩

/-! ## Register map layout -/

/-- C10, as the claim states it: the register map does not have 19 registers. -/
theorem adc_reg_map_not_19_registers :
    ¬ (adc_reg_map_members.length = 19) := by decide

/-- C10, amended: the register map is an ordered aggregate of 20 registers of
four bytes each (one status, two control, two sample-time, four
injected-offset, two watchdog-threshold, three regular-sequence, one
injected-sequence, four injected-data, one regular-data, in that order), laid
out without padding: register `i` is at byte offset `4 * i`, and the regular
data register `DR` is the last one, at offset 76. -/
theorem adc_reg_map_layout :
    adc_reg_map_members.length = 20 ∧
    adc_reg_map_members.map (fun x => x.2.1) =
      List.replicate 1 adc_reg_kind.status ++ List.replicate 2 adc_reg_kind.control ++
      List.replicate 2 adc_reg_kind.sample_time ++
      List.replicate 4 adc_reg_kind.injected_offset ++
      List.replicate 2 adc_reg_kind.watchdog_threshold ++
      List.replicate 3 adc_reg_kind.regular_sequence ++
      List.replicate 1 adc_reg_kind.injected_sequence ++
      List.replicate 4 adc_reg_kind.injected_data ++
      List.replicate 1 adc_reg_kind.regular_data ∧
    adc_reg_map_members.map (fun x => x.2.2) = List.replicate 20 4 ∧
    adc_reg_map_offsets = (List.range 20).map (fun i => 4 * i) ∧
    adc_reg_map_members.getLast? = some ("DR", adc_reg_kind.regular_data, 4) ∧
    adc_reg_map_offsets.getLast? = some 76 ∧
    (∀ r : adc_reg_map, r.words.length = 20 ∧ r.words.getLast? = some r.DR) := by
  refine ⟨by decide, by decide, by decide, by decide, by rfl, by decide, ?_⟩
  intro r
  exact ⟨rfl, rfl⟩


/-! ## Sequence length out of range -/

/-- A value from 32 to 255 has one of its bits 5, 6 and 7 set. -/
theorem testBit_high_of_ge_32 :
    ∀ n, n < 256 → 32 ≤ n → (n.testBit 5 || n.testBit 6 || n.testBit 7) = true := by
  intro n h256 h32
  simp only [Nat.testBit_to_div_mod, Bool.or_eq_true, decide_eq_true_eq]
  omega

/-- For a length from 33 to 255 written over a zero `SQR1`, a bit above the
length field ends up set. -/
theorem seqlen_overflow_bit (L : Nat) (h33 : 33 ≤ L) (h255 : L ≤ 255) :
    ∃ i, ADC_SQR1_L.testBit i = false ∧
      ((0 &&& to_uint32 (~~~ (ADC_SQR1_L : Int))) |||
        to_uint32 ((((L % 256 : Nat) : Int) - 1) * 2 ^ 20)).testBit i = true := by
  rw [Nat.zero_and, Nat.zero_or, to_uint32_pred_shift L (by omega) h255]
  have h := testBit_high_of_ge_32 (L - 1) (by omega) (by omega)
  simp only [Bool.or_eq_true] at h
  rcases h with (h | h) | h
  · exact ⟨25, by decide, by rw [Nat.testBit_shiftLeft]; simpa using h⟩
  · exact ⟨26, by decide, by rw [Nat.testBit_shiftLeft]; simpa using h⟩
  · exact ⟨27, by decide, by rw [Nat.testBit_shiftLeft]; simpa using h⟩

/-- C8, as the claim states it: the length 17 is outside 1..16, yet for no
device and no 32-bit prior value of `SQR1` does `adc_set_reg_seqlen` change a
bit outside the length field selected by `ADC_SQR1_L`. -/
theorem adc_set_reg_seqlen_17_stays_in_field :
    ¬ (1 ≤ 17 ∧ 17 ≤ 16) ∧ 17 ≤ 255 ∧
    ¬ ∃ (dev : adc_dev) (m : adc_mem), (m dev.regs).SQR1 < 2 ^ 32 ∧
        ∃ i, ADC_SQR1_L.testBit i = false ∧
          (adc_set_reg_seqlen dev 17 m dev.regs).SQR1.testBit i ≠
            (m dev.regs).SQR1.testBit i := by
  refine ⟨by decide, by decide, ?_⟩
  rintro ⟨dev, m, hv, i, hi, hne⟩
  apply hne
  rw [adc_set_reg_seqlen_SQR1]
  exact seqlen_outside _ 17 hv (by decide) (by decide) i hi

/-- C8, amended: for every `uint8` length the write to `SQR1` is carried out,
with no error and no refusal. For a length from 33 to 255, and for the length 0
(where the shifted value is negative and converts to `0xFFF00000`), there is a
prior 32-bit value of `SQR1` for which a bit outside the length field changes.
For a length from 17 to 32, `length - 1` fits the five-bit field selected by
`ADC_SQR1_L` and no bit outside the field changes. -/
theorem adc_set_reg_seqlen_out_of_range (dev : adc_dev) (length : Nat)
    (h255 : length ≤ 255) :
    (∀ m : adc_mem, (adc_set_reg_seqlen dev length m dev.regs).SQR1 =
      ((m dev.regs).SQR1 &&& 0xFE0FFFFF) ||| to_uint32 (((length : Int) - 1) * 2 ^ 20)) ∧
    ((length = 0 ∨ 33 ≤ length) →
      ∃ m : adc_mem, (m dev.regs).SQR1 < 2 ^ 32 ∧
        ∃ i, ADC_SQR1_L.testBit i = false ∧
          (adc_set_reg_seqlen dev length m dev.regs).SQR1.testBit i ≠
            (m dev.regs).SQR1.testBit i) ∧
    ((17 ≤ length ∧ length ≤ 32) →
      ∀ m : adc_mem, (m dev.regs).SQR1 < 2 ^ 32 →
        ((adc_set_reg_seqlen dev length m dev.regs).SQR1 &&& ADC_SQR1_L) >>> 20
            = length - 1 ∧
        ∀ i, ADC_SQR1_L.testBit i = false →
          (adc_set_reg_seqlen dev length m dev.regs).SQR1.testBit i =
            (m dev.regs).SQR1.testBit i) := by
  refine ⟨?_, ?_, ?_⟩
  · intro m
    have hm : length % 256 = length := Nat.mod_eq_of_lt (by omega)
    have hc : to_uint32 (~~~ (ADC_SQR1_L : Int)) = 0xFE0FFFFF := by decide
    rw [adc_set_reg_seqlen_SQR1, hm, hc]
  · intro h
    have hz : (zero_SQR1_mem dev.regs).SQR1 = 0 := rfl
    refine ⟨zero_SQR1_mem, by rw [hz]; decide, ?_⟩
    rcases h with h0 | h33
    · subst h0
      refine ⟨25, by decide, ?_⟩
      rw [adc_set_reg_seqlen_SQR1, hz]
      decide
    · obtain ⟨i, hi, hset⟩ := seqlen_overflow_bit length h33 h255
      refine ⟨i, hi, ?_⟩
      rw [adc_set_reg_seqlen_SQR1, hz, hset]
      simp
  · intro h m hv
    refine ⟨?_, ?_⟩
    · rw [adc_set_reg_seqlen_SQR1]
      exact seqlen_field _ length hv (by omega) h.2
    · intro i hi
      rw [adc_set_reg_seqlen_SQR1]
      exact seqlen_outside _ length hv (by omega) h.2 i hi

/-- Witness for C8, amended: the length 33. -/
theorem adc_set_reg_seqlen_out_of_range_witness :
    (33 ≤ 255 ∧ (33 = 0 ∨ 33 ≤ 33)) ∧
    (∃ m : adc_mem, (m example_dev.regs).SQR1 < 2 ^ 32 ∧
      ∃ i, ADC_SQR1_L.testBit i = false ∧
        (adc_set_reg_seqlen example_dev 33 m example_dev.regs).SQR1.testBit i ≠
          (m example_dev.regs).SQR1.testBit i) ∧
    (adc_set_reg_seqlen example_dev 33 zero_SQR1_mem example_dev.regs).SQR1 = 0x02000000 :=
  ⟨⟨by decide, by decide⟩,
    (adc_set_reg_seqlen_out_of_range example_dev 33 (by decide)).2.1 (by decide),
    by decide⟩

/-! ## Disabling every device -/

theorem adc_foreach_cons (d : adc_dev) (ds : List adc_dev)
    (fn : adc_dev → adc_mem → adc_mem) (m : adc_mem) :
    adc_foreach (d :: ds) fn m = adc_foreach ds fn (fn d m) := rfl

/-- A block that belongs to no device of the list is left as it is. -/
theorem adc_foreach_disable_not_mem (b : Nat) (devs : List adc_dev) (m : adc_mem) (a : Nat)
    (ha : ∀ d ∈ devs, d.regs ≠ a) : adc_foreach devs (adc_disable b) m a = m a := by
  induction devs generalizing m with
  | nil => rfl
  | cons d ds ih =>
    rw [adc_foreach_cons, ih _ (fun x hx => ha x (List.mem_cons_of_mem _ hx)),
      adc_disable_apply]
    have hne : a ≠ d.regs := fun h => ha d (List.mem_cons_self _ _) h.symm
    simp [hne]

/-- The block of a device of the list has its ADON bit cleared and nothing else changed. -/
theorem adc_foreach_disable_mem (b : Nat) (devs : List adc_dev) (m : adc_mem) (a : Nat)
    (ha : ∃ d ∈ devs, d.regs = a) :
    adc_foreach devs (adc_disable b) m a =
      { m a with CR2 := bb_perip_store (m a).CR2 b 0 } := by
  induction devs generalizing m with
  | nil =>
    obtain ⟨d, hd, _⟩ := ha
    cases hd
  | cons d ds ih =>
    rw [adc_foreach_cons]
    by_cases hds : ∃ x ∈ ds, x.regs = a
    · rw [ih _ hds, adc_disable_apply]
      by_cases had : a = d.regs
      · simp [had, bb_perip_store_clear_clear]
      · simp [had]
    · have hnot : ∀ x ∈ ds, x.regs ≠ a := fun x hx hxa => hds ⟨x, hx, hxa⟩
      rw [adc_foreach_disable_not_mem b ds _ a hnot, adc_disable_apply]
      obtain ⟨x, hx, hxa⟩ := ha
      rcases List.mem_cons.mp hx with hxd | hxds
      · subst hxd
        simp [hxa.symm]
      · exact absurd hxa (hnot x hxds)

/-- C9: with `adc_foreach` applying its argument once to each device of the
registered list, after `adc_disable_all` every device of the list has the ADON
bit of its `CR2` clear, every other bit of `CR2` and every other register of
those devices is unchanged, a 32-bit `CR2` is still a 32-bit value, and the
register block of a device that is not in the list is unchanged. The register
blocks of the list need not be distinct. -/
theorem adc_disable_all_disables_each (ADC_CR2_ADON_BIT : Nat) (adc_devs : List adc_dev)
    (m : adc_mem) (hb : ADC_CR2_ADON_BIT < 32) :
    (∀ d ∈ adc_devs,
      (adc_disable_all ADC_CR2_ADON_BIT adc_devs m d.regs).CR2.testBit ADC_CR2_ADON_BIT
        = false ∧
      (∀ i, i ≠ ADC_CR2_ADON_BIT →
        (adc_disable_all ADC_CR2_ADON_BIT adc_devs m d.regs).CR2.testBit i =
          (m d.regs).CR2.testBit i) ∧
      adc_disable_all ADC_CR2_ADON_BIT adc_devs m d.regs =
        { m d.regs with CR2 := (adc_disable_all ADC_CR2_ADON_BIT adc_devs m d.regs).CR2 } ∧
      ((m d.regs).CR2 < 2 ^ 32 →
        (adc_disable_all ADC_CR2_ADON_BIT adc_devs m d.regs).CR2 < 2 ^ 32)) ∧
    (∀ a, (∀ d ∈ adc_devs, d.regs ≠ a) →
      adc_disable_all ADC_CR2_ADON_BIT adc_devs m a = m a) := by
  refine ⟨?_, ?_⟩
  · intro d hd
    have h := adc_foreach_disable_mem ADC_CR2_ADON_BIT adc_devs m d.regs ⟨d, hd, rfl⟩
    unfold adc_disable_all
    rw [h]
    refine ⟨?_, ?_, ?_, ?_⟩
    · simp [bb_perip_store_testBit]
    · intro i hi
      simp [bb_perip_store_testBit, hi]
    · rfl
    · intro hw
      exact bb_perip_store_lt (m d.regs).CR2 ADC_CR2_ADON_BIT 0 hw hb
  · intro a ha
    exact adc_foreach_disable_not_mem ADC_CR2_ADON_BIT adc_devs m a ha

/-- Witness for C9: two devices at addresses 0 and 1, the bit index 1, and a
memory whose blocks all have `CR2` equal to `0x00A00002`. -/
theorem adc_disable_all_disables_each_witness :
    (1 < 32) ∧
    (∀ d ∈ [({ regs := 0, priv := 0, clk_id := 0 } : adc_dev),
            { regs := 1, priv := 0, clk_id := 1 }],
      (adc_disable_all 1 [{ regs := 0, priv := 0, clk_id := 0 },
        { regs := 1, priv := 0, clk_id := 1 }] example_mem d.regs).CR2.testBit 1 = false) ∧
    (adc_disable_all 1 [{ regs := 0, priv := 0, clk_id := 0 },
      { regs := 1, priv := 0, clk_id := 1 }] example_mem 1).CR2 = 0x00A00000 ∧
    (adc_disable_all 1 [{ regs := 0, priv := 0, clk_id := 0 },
      { regs := 1, priv := 0, clk_id := 1 }] example_mem 2).CR2 = 0x00A00002 :=
  ⟨by decide,
    fun d hd => ((adc_disable_all_disables_each 1 _ example_mem (by decide)).1 d hd).1,
    by decide, by decide⟩

end libmaple
